import Mathlib

/-!
# browserpool: provisioning protocol, factory policy and decommissioning

A shallow embedding of `browser.go` and `factory.go`.

* The Docker daemon, the host network stack, the file system, the sandbox's
  HTTP endpoint and the clock are collaborators outside the program.  Their
  answers are the fields of `Env`; every function of the program is a pure
  function of an `Env` and of the `Browser` it runs on.
* Every request the program sends to a collaborator is recorded, in program
  order, as a `Call` in a trace.
* A Go `error` is `Option Error` (`none` is `nil`); a run that panics instead
  of returning is `Outcome.panic`.
-/

namespace Browserpool

/-! ## Errors, outcomes, time -/

/-- Go error values.  `eof` is the sentinel `io.EOF`; every other error is
told apart by its message only. -/
inductive Error where
  | eof
  | msg (text : String)
  deriving DecidableEq, Repr

/-- How a call that may panic ends: it returns a value, or it panics. -/
inductive Outcome (α : Type) where
  | ret (a : α)
  | panic (reason : String)
  deriving DecidableEq, Repr

/-- A `time.Duration`: a signed 64-bit count of nanoseconds. -/
abbrev Duration := Int

/-- A `time.Time`, as the number of nanoseconds since the zero `Time`. -/
abbrev Time := Int

/-- The zero value of `time.Time`. -/
def Time.zero : Time := 0

/-- The constant `time.Second`. -/
def Second : Duration := 1000000000

/-- The constant `time.Minute`. -/
def Minute : Duration := 60 * Second

def maxDuration : Duration := 2 ^ 63 - 1

def minDuration : Duration := -(2 ^ 63)

/-- The method `Time.Sub`: the duration `t - u`, saturated to the range of
`Duration` as the library documents. -/
def Time.Sub (t u : Time) : Duration :=
  if t - u > maxDuration then maxDuration
  else if t - u < minDuration then minDuration
  else t - u

/-- The function `time.Since` evaluated when the clock reads `now`:
`time.Now().Sub(t)`. -/
def Since (now t : Time) : Duration := Time.Sub now t

/-! ## Constants of the package -/

def debugPort : Int := 9222

def dockerImage : String := "zenika/alpine-chrome"

def imagePullLimit : Duration := Minute

def maxBrowserAge : Duration := Second

/-! ## Data model -/

/-- A handle of a Docker client (`*client.Client`). -/
structure Client where
  handle : Nat
  deriving DecidableEq, Repr

/-- The struct `Browser`.  `dockerCLI` is the handle `NewBrowser` stores; the
methods that use it are only called on a `Browser` built by `NewBrowser`. -/
structure Browser where
  CreationTime : Time
  DebugURL : String
  ID : String
  Port : Int
  dockerCLI : Client
  deriving DecidableEq, Repr

/-- A `pool.PooledObject` whose `Object` is a `*Browser`. -/
structure PooledObject where
  Object : Browser
  deriving DecidableEq, Repr

abbrev Byte := Nat

/-- The bytes of an ASCII string. -/
def ascii (s : String) : List Byte := s.toList.map Char.toNat

/-- An `io.ReadCloser` handed out by the backend: the bytes it still has to
deliver, and the error the read after the last byte reports (`io.EOF` when the
stream simply ends, anything else for a transport error or an expired
deadline). -/
structure Stream where
  data : List Byte
  term : Error
  deriving DecidableEq, Repr

/-- A value decoded by `encoding/json` into an `interface{}`. -/
inductive Value where
  | null
  | bool (b : Bool)
  | float64 (x : Int)
  | string (s : String)
  | array (xs : List Value)
  | object (kvs : List (String × Value))

/-- The name the Go runtime prints for the dynamic type of a decoded value. -/
def Value.typeName : Value → String
  | .null => "nil"
  | .bool _ => "bool"
  | .float64 _ => "float64"
  | .string _ => "string"
  | .array _ => "[]interface \x7b\x7d"
  | .object _ => "map[string]interface \x7b\x7d"

/-- The struct `container.Config`, the fields the program sets. -/
structure ContainerConfig where
  Image : String
  ExposedPorts : List String
  Cmd : List String
  deriving DecidableEq, Repr

structure PortBinding where
  HostIP : String
  HostPort : String
  deriving DecidableEq, Repr

/-- The struct `container.HostConfig`, the fields the program sets. -/
structure HostConfig where
  AutoRemove : Bool
  PortBindings : List (String × List PortBinding)
  SecurityOpt : List String
  deriving DecidableEq, Repr

/-- One request of the program to a collaborator. -/
inductive Call where
  | newClient
  | imagePull (image : String) (timeout : Duration)
  | pullClose
  | readFile (path : String)
  | resolveTCPAddr (network address : String)
  | listenTCP
  | listenerClose
  | containerCreate (config : ContainerConfig) (host : HostConfig)
  | containerStart (id : String)
  | containerLogs (id : String) (follow showStderr : Bool)
  | logsClose
  | httpGet (url : String)
  | bodyClose
  | clientClose
  | timeNow
  | containerRemove (id : String) (force : Bool)
  | logDebug (message browser : String)
  deriving DecidableEq, Repr

/-- The answers of the collaborators during one operation of the program. -/
structure Env where
  /-- Answer of `client.NewClientWithOpts`. -/
  newClient : Except Error Client
  /-- Answer of `ImagePull`: the progress stream, or an error. -/
  imagePull : String → Except Error Stream
  /-- Answer of `Close` on the progress stream. -/
  pullClose : Option Error
  /-- Answer of `ioutil.ReadFile`. -/
  readFile : String → Except Error String
  /-- Answer of `net.ResolveTCPAddr`. -/
  resolveTCPAddr : Option Error
  /-- Answer of `net.ListenTCP`: the port the listener is bound to. -/
  listenTCP : Except Error Int
  /-- Answer of `Close` on the listener. -/
  listenerClose : Option Error
  /-- Answer of `ContainerCreate`: the identifier of the container. -/
  containerCreate : ContainerConfig → HostConfig → Except Error String
  /-- Answer of `ContainerStart`. -/
  containerStart : String → Option Error
  /-- Answer of `ContainerLogs`: the output stream, or an error. -/
  containerLogs : String → Except Error Stream
  /-- Answer of `Close` on the output stream. -/
  logsClose : Option Error
  /-- Answer of `http.Get` followed by the JSON decoder: a transport error, or
  a body with the result of decoding it into a `map[string]interface{}`. -/
  httpGet : String → Except Error (Except Error (List (String × Value)))
  /-- Answer of `Close` on the Docker client. -/
  clientClose : Option Error
  /-- Reading of the clock. -/
  now : Time
  /-- Answer of `ContainerRemove`. -/
  containerRemove : String → Bool → Option Error

/-- The state a method leaves behind: what it returned, the `Browser` it ran
on, and the requests it sent. -/
structure Ret (α : Type) where
  val : α
  b : Browser
  trace : List Call

/-! ## Line-oriented reading (`bufio`, `bytes`) -/

/-- The byte `'\n'`. -/
def newline : Byte := 10

/-- The readiness marker `[]byte("ws://")`. -/
def marker : List Byte := [119, 115, 58, 47, 47]

/-- Whether `b` begins with the bytes of `sub`. -/
def startsWith : List Byte → List Byte → Bool
  | _, [] => true
  | [], _ :: _ => false
  | c :: cs, d :: ds => c == d && startsWith cs ds

/-- The function `bytes.Contains`: whether `sub` occurs in `b` as a run of
consecutive bytes. -/
def bytesContains : List Byte → List Byte → Bool
  | [], sub => startsWith [] sub
  | c :: cs, sub => startsWith (c :: cs) sub || bytesContains cs sub

/-- Cut `data` after the first occurrence of `delim`: the bytes up to and
including it, and what follows; `none` when `delim` does not occur. -/
def splitDelim (delim : Byte) : List Byte → Option (List Byte × List Byte)
  | [] => none
  | c :: cs =>
    if c = delim then some ([c], cs)
    else
      match splitDelim delim cs with
      | none => none
      | some (line, rest) => some (c :: line, rest)

/-- The method `bufio.Reader.ReadBytes`: reads until the first occurrence of
`delim` and returns the bytes up to and including it; when the stream runs out
first, returns the bytes read so far together with the stream's error.  The
second component is the reader after the call. -/
def ReadBytes (r : Stream) (delim : Byte) : (List Byte × Option Error) × Stream :=
  match splitDelim delim r.data with
  | some (line, rest) => ((line, none), { r with data := rest })
  | none => ((r.data, some r.term), { r with data := [] })

/-- What the read loop of `pullImage` leaves behind: the error it returns with
(`none` when it leaves the loop by `break`) and the reader after the loop. -/
structure Drain where
  err : Option Error
  rest : Stream
  deriving DecidableEq, Repr

/-- The loop of `pullImage`: read line after line until a read fails; `io.EOF`
leaves the loop, any other error is returned. -/
def drain (r : Stream) : Drain :=
  match h : ReadBytes r newline with
  | ((_, some err), r1) => if err = Error.eof then ⟨none, r1⟩ else ⟨some err, r1⟩
  | ((_, none), r1) => drain r1
termination_by r.data.length
decreasing_by
  have key : ∀ (data line rest : List Byte),
      splitDelim newline data = some (line, rest) → rest.length < data.length := by
    intro data
    induction data with
    | nil => intro line rest hs; simp [splitDelim] at hs
    | cons c cs ih =>
      intro line rest hs
      unfold splitDelim at hs
      split at hs
      · simp only [Option.some.injEq, Prod.mk.injEq] at hs
        obtain ⟨-, rfl⟩ := hs
        simp
      · cases hc : splitDelim newline cs with
        | none => simp [hc] at hs
        | some p =>
          obtain ⟨l, r⟩ := p
          simp only [hc, Option.some.injEq, Prod.mk.injEq] at hs
          obtain ⟨-, rfl⟩ := hs
          have := ih l r hc
          simp only [List.length_cons]
          omega
  unfold ReadBytes at h
  cases hs : splitDelim newline r.data with
  | none => simp [hs] at h
  | some p =>
    obtain ⟨l, rest⟩ := p
    simp only [hs, Prod.mk.injEq] at h
    obtain ⟨-, rfl⟩ := h
    exact key _ _ _ hs

/-- What the read loop of `startContainer` leaves behind: the error it returns
with (`none` when it leaves the loop by `break`), the number of complete lines
it took from the reader, and the reader after the loop. -/
structure Scan where
  err : Option Error
  lines : Nat
  rest : Stream
  deriving DecidableEq, Repr

/-- The loop of `startContainer`: read line after line; a failed read leaves
the loop when the error is `io.EOF` and is returned otherwise; a line that
contains the marker leaves the loop. -/
def scanLogs (r : Stream) : Scan :=
  match h : ReadBytes r newline with
  | ((_, some err), r1) => if err = Error.eof then ⟨none, 0, r1⟩ else ⟨some err, 0, r1⟩
  | ((line, none), r1) =>
    if bytesContains line marker then ⟨none, 1, r1⟩
    else
      let s := scanLogs r1
      { s with lines := s.lines + 1 }
termination_by r.data.length
decreasing_by
  have key : ∀ (data line rest : List Byte),
      splitDelim newline data = some (line, rest) → rest.length < data.length := by
    intro data
    induction data with
    | nil => intro line rest hs; simp [splitDelim] at hs
    | cons c cs ih =>
      intro line rest hs
      unfold splitDelim at hs
      split at hs
      · simp only [Option.some.injEq, Prod.mk.injEq] at hs
        obtain ⟨-, rfl⟩ := hs
        simp
      · cases hc : splitDelim newline cs with
        | none => simp [hc] at hs
        | some p =>
          obtain ⟨l, r⟩ := p
          simp only [hc, Option.some.injEq, Prod.mk.injEq] at hs
          obtain ⟨-, rfl⟩ := hs
          have := ih l r hc
          simp only [List.length_cons]
          omega
  unfold ReadBytes at h
  cases hs : splitDelim newline r.data with
  | none => simp [hs] at h
  | some p =>
    obtain ⟨l, rest⟩ := p
    simp only [hs, Prod.mk.injEq] at h
    obtain ⟨-, rfl⟩ := h
    exact key _ _ _ hs

/-- What a run of `startContainer` leaves behind: as `Ret`, and the account of
the read loop on the output stream it attached to. -/
structure Started extends Ret (Option Error) where
  scan : Option Scan

/-! ## browser.go -/

/-- The function `NewBrowser`. -/
def NewBrowser (env : Env) : Except Error Browser × List Call :=
  match env.newClient with
  | .error err => (.error err, [Call.newClient])
  | .ok cli =>
    (.ok { CreationTime := Time.zero, DebugURL := "", ID := "", Port := 0, dockerCLI := cli },
      [Call.newClient])

/-- The function `getDebugURL`.  The last line is the unchecked type assertion
`result["webSocketDebuggerUrl"].(string)`: it panics, with the message of the
Go runtime, unless the key is present with a string value; an absent key reads
as a nil interface.  The deferred `Body.Close` runs on every exit once the
request has succeeded. -/
def getDebugURL (env : Env) (port : Int) : Outcome (String × Option Error) × List Call :=
  let url := "http://localhost:" ++ toString port ++ "/json/version"
  match env.httpGet url with
  | .error err => (.ret ("", some err), [Call.httpGet url])
  | .ok body =>
    match body with
    | .error err => (.ret ("", some err), [Call.httpGet url, Call.bodyClose])
    | .ok result =>
      match result.lookup "webSocketDebuggerUrl" with
      | some (Value.string s) => (.ret (s, none), [Call.httpGet url, Call.bodyClose])
      | some v =>
        (.panic ("interface conversion: interface \x7b\x7d is " ++ v.typeName ++ ", not string"),
          [Call.httpGet url, Call.bodyClose])
      | none =>
        (.panic "interface conversion: interface \x7b\x7d is nil, not string",
          [Call.httpGet url, Call.bodyClose])

/-- The function `getFreePort`. -/
def getFreePort (env : Env) : (Int × Option Error) × List Call :=
  match env.resolveTCPAddr with
  | some err => ((0, some err), [Call.resolveTCPAddr "tcp" "0.0.0.0:0"])
  | none =>
    match env.listenTCP with
    | .error err => ((0, some err), [Call.resolveTCPAddr "tcp" "0.0.0.0:0", Call.listenTCP])
    | .ok port =>
      ((port, env.listenerClose),
        [Call.resolveTCPAddr "tcp" "0.0.0.0:0", Call.listenTCP, Call.listenerClose])

/-- The method `Browser.pullImage`.  The deadline of `imagePullLimit` travels
with the request; when it expires the backend answers with an error, either to
the request or to a read of the progress stream. -/
def pullImage (env : Env) (b : Browser) : Ret (Option Error) :=
  match env.imagePull dockerImage with
  | .error err => ⟨some err, b, [Call.imagePull dockerImage imagePullLimit]⟩
  | .ok reader =>
    match (drain reader).err with
    | some err => ⟨some err, b, [Call.imagePull dockerImage imagePullLimit]⟩
    | none => ⟨env.pullClose, b, [Call.imagePull dockerImage imagePullLimit, Call.pullClose]⟩

/-- The `container.Config` built by `createContainer`. -/
def containerConfig : ContainerConfig :=
  { Image := dockerImage
    ExposedPorts := [toString debugPort ++ "/tcp"]
    Cmd := ["--remote-debugging-address=0.0.0.0",
      "--remote-debugging-port=" ++ toString debugPort] }

/-- The `container.HostConfig` built by `createContainer` for the seccomp
profile `chromeSec` and the host port `port`. -/
def hostConfig (chromeSec : String) (port : Int) : HostConfig :=
  { AutoRemove := true
    PortBindings := [(toString debugPort ++ "/tcp", [{ HostIP := "", HostPort := toString port }])]
    SecurityOpt := ["seccomp=" ++ chromeSec] }

/-- The method `Browser.createContainer`. -/
def createContainer (env : Env) (b : Browser) : Ret (Option Error) :=
  match env.readFile "chrome.json" with
  | .error err => ⟨some err, b, [Call.readFile "chrome.json"]⟩
  | .ok chromeSec =>
    let p := getFreePort env
    match p.1 with
    | (_, some err) => ⟨some err, b, Call.readFile "chrome.json" :: p.2⟩
    | (port, none) =>
      let b1 := { b with Port := port }
      match env.containerCreate containerConfig (hostConfig chromeSec port) with
      | .error err =>
        ⟨some err, b1, Call.readFile "chrome.json" :: p.2 ++
          [Call.containerCreate containerConfig (hostConfig chromeSec port)]⟩
      | .ok id =>
        ⟨none, { b1 with ID := id }, Call.readFile "chrome.json" :: p.2 ++
          [Call.containerCreate containerConfig (hostConfig chromeSec port)]⟩

/-- The method `Browser.startContainer`.  Besides what it returns, the run
leaves the attached output stream in the state the read loop brought it to:
`scan` is that loop's account (lines taken, what is still unread), `none` when
no stream was attached. -/
def startContainer (env : Env) (b : Browser) : Started :=
  match env.containerStart b.ID with
  | some err => { val := some err, b := b, trace := [Call.containerStart b.ID], scan := none }
  | none =>
    match env.containerLogs b.ID with
    | .error err =>
      { val := some err, b := b,
        trace := [Call.containerStart b.ID, Call.containerLogs b.ID true true], scan := none }
    | .ok reader =>
      match (scanLogs reader).err with
      | some err =>
        { val := some err, b := b,
          trace := [Call.containerStart b.ID, Call.containerLogs b.ID true true],
          scan := some (scanLogs reader) }
      | none =>
        { val := env.logsClose, b := b,
          trace := [Call.containerStart b.ID, Call.containerLogs b.ID true true, Call.logsClose],
          scan := some (scanLogs reader) }

/-- The method `Browser.Launch`. -/
def Launch (env : Env) (b : Browser) : Ret (Outcome (Option Error)) :=
  let r1 := pullImage env b
  match r1.val with
  | some err => ⟨.ret (some err), r1.b, r1.trace⟩
  | none =>
    let r2 := createContainer env r1.b
    match r2.val with
    | some err => ⟨.ret (some err), r2.b, r1.trace ++ r2.trace⟩
    | none =>
      let r3 := startContainer env r2.b
      match r3.val with
      | some err => ⟨.ret (some err), r3.b, r1.trace ++ r2.trace ++ r3.trace⟩
      | none =>
        let d := getDebugURL env r3.b.Port
        match d.1 with
        | .panic reason => ⟨.panic reason, r3.b, r1.trace ++ r2.trace ++ r3.trace ++ d.2⟩
        | .ret (_, some err) =>
          ⟨.ret (some err), r3.b, r1.trace ++ r2.trace ++ r3.trace ++ d.2⟩
        | .ret (debugURL, none) =>
          let b4 := { r3.b with DebugURL := debugURL }
          match env.clientClose with
          | some err =>
            ⟨.ret (some err), b4, r1.trace ++ r2.trace ++ r3.trace ++ d.2 ++ [Call.clientClose]⟩
          | none =>
            ⟨.ret none, { b4 with CreationTime := env.now },
              r1.trace ++ r2.trace ++ r3.trace ++ d.2 ++ [Call.clientClose, Call.timeNow]⟩

/-- The method `Browser.Close`. -/
def Close (env : Env) (b : Browser) : Ret (Option Error) :=
  match env.newClient with
  | .error err => ⟨some err, b, [Call.newClient]⟩
  | .ok _ => ⟨env.containerRemove b.ID true, b, [Call.newClient, Call.containerRemove b.ID true]⟩

/-! ## factory.go -/

/-- The method `browserFactory.MakeObject`. -/
def MakeObject (env : Env) : Outcome (Option PooledObject × Option Error) × List Call :=
  let n := NewBrowser env
  match n.1 with
  | .error err => (.ret (none, some err), n.2)
  | .ok browser =>
    let r := Launch env browser
    match r.val with
    | .panic reason => (.panic reason, n.2 ++ r.trace)
    | .ret (some err) => (.ret (none, some err), n.2 ++ r.trace)
    | .ret none =>
      (.ret (some ⟨r.b⟩, none), n.2 ++ r.trace ++ [Call.logDebug "created browser" r.b.ID])

/-- The method `browserFactory.DestroyObject`. -/
def DestroyObject (env : Env) (object : PooledObject) : Ret (Option Error) :=
  let browser := object.Object
  let r := Close env browser
  ⟨r.val, r.b, Call.logDebug "closing browser" browser.ID :: r.trace⟩


/-- The method `browserFactory.ValidateObject`, run when the clock reads
`env.now`. -/
def ValidateObject (env : Env) (object : PooledObject) : Bool × List Call :=
  let browser := object.Object
  if Since env.now browser.CreationTime > maxBrowserAge then
    (false, [Call.timeNow, Call.logDebug "releasing old browser" browser.ID])
  else
    (true, [Call.timeNow])

/-! ## Vocabulary of the statements -/

/-- The bytes of a sequence of lines, each given by its content before the
terminating newline. -/
def joinLines (bodies : List (List Byte)) : List Byte :=
  (bodies.map (fun body => body ++ [newline])).flatten

/-- Position of a request in the provisioning protocol; `0` for a request that
is not part of provisioning. -/
def Call.rank : Call → Nat
  | .imagePull _ _ => 1
  | .pullClose => 2
  | .readFile _ => 3
  | .resolveTCPAddr _ _ => 4
  | .listenTCP => 5
  | .listenerClose => 6
  | .containerCreate _ _ => 7
  | .containerStart _ => 8
  | .containerLogs _ _ _ => 9
  | .logsClose => 10
  | .httpGet _ => 11
  | .bodyClose => 12
  | .clientClose => 13
  | .timeNow => 14
  | .newClient => 0
  | .containerRemove _ _ => 0
  | .logDebug _ _ => 0

/-- The provisioning step a request belongs to: 1 image pull, 2 container
creation with port reservation, 3 container start and readiness scan,
4 metadata fetch, 5 what follows the metadata fetch. -/
def Call.step (c : Call) : Nat :=
  if c.rank = 0 then 0
  else if c.rank ≤ 2 then 1
  else if c.rank ≤ 7 then 2
  else if c.rank ≤ 10 then 3
  else if c.rank ≤ 12 then 4
  else 5

/-- Whether a request asks the backend to remove a container. -/
def Call.isRemove : Call → Bool
  | .containerRemove _ _ => true
  | _ => false

/-- The requests of `t` are sent in protocol order, each at most once, and all
have a position between `lo` and `hi`. -/
def InOrder (lo hi : Nat) (t : List Call) : Prop :=
  (t.map Call.rank).Pairwise (· < ·) ∧ ∀ c ∈ t, lo ≤ c.rank ∧ c.rank ≤ hi

/-! ## Sample runs -/

/-- A run in which every collaborator succeeds; the container prints the
marker on its second line and keeps printing afterwards. -/
def envReady : Env :=
  { newClient := .ok ⟨1⟩
    imagePull := fun _ => .ok ⟨ascii "pulling\n", .eof⟩
    pullClose := none
    readFile := fun _ => .ok "profile"
    resolveTCPAddr := none
    listenTCP := .ok 40000
    listenerClose := none
    containerCreate := fun _ _ => .ok "c0ffee"
    containerStart := fun _ => none
    containerLogs := fun _ =>
      .ok ⟨joinLines [ascii "boot"] ++ (ascii "on ws://x" ++ [newline]) ++ ascii "later\n", .eof⟩
    logsClose := none
    httpGet := fun _ => .ok (.ok [("webSocketDebuggerUrl", .string "ws://localhost:40000/x")])
    clientClose := none
    now := 5000000000
    containerRemove := fun _ _ => none }

/-- The run of `envReady`, except that the container prints one line and an
unterminated tail, neither with the marker, and its output then ends. -/
def envSilent : Env :=
  { envReady with
    containerLogs := fun _ => .ok ⟨joinLines [ascii "boot"] ++ ascii "tail", .eof⟩ }

/-- The run of `envReady`, except that the container prints nothing at all
before its output ends. -/
def envMute : Env :=
  { envReady with containerLogs := fun _ => .ok ⟨[], .eof⟩ }

/-- The run of `envReady`, except that the backend refuses the image pull. -/
def envPullRefused : Env :=
  { envReady with imagePull := fun _ => .error (.msg "pull access denied") }

/-- The run of `envReady`, except that the deadline of the image pull expires
while the progress stream is being read. -/
def envPullExpires : Env :=
  { envReady with
    imagePull := fun _ => .ok ⟨ascii "pulling\n", .msg "context deadline exceeded"⟩ }

/-- The run of `envReady`, except that the backend fails to start the created
container. -/
def envStartFails : Env :=
  { envReady with containerStart := fun _ => some (.msg "port is already allocated") }

/-- The run of `envReady`, except that no Docker client can be built. -/
def envNoClient : Env :=
  { envReady with newClient := .error (.msg "invalid DOCKER_HOST") }

/-- The run of `envReady`, except that the metadata endpoint answers with the
empty JSON object. -/
def envEmptyObject : Env :=
  { envReady with httpGet := fun _ => .ok (.ok []) }

/-- The run of `envReady`, except that the metadata endpoint answers with an
object whose `webSocketDebuggerUrl` is the number 42. -/
def envNumber : Env :=
  { envReady with httpGet := fun _ => .ok (.ok [("webSocketDebuggerUrl", .float64 42)]) }

/-- The run of `envReady`, with the clock reading exactly one second. -/
def envOneSecond : Env :=
  { envReady with now := 1000000000 }

/-- A `Browser` as `NewBrowser` returns it. -/
def browserFresh : Browser :=
  { CreationTime := Time.zero, DebugURL := "", ID := "", Port := 0, dockerCLI := ⟨1⟩ }

/-- A `Browser` as a successful `Launch` leaves it, stamped when the clock read
zero. -/
def browserReady : Browser :=
  { CreationTime := 0, DebugURL := "ws://localhost:40000/x", ID := "c0ffee", Port := 40000,
    dockerCLI := ⟨1⟩ }

/-! ## Reading lines -/

theorem startsWith_iff (b sub : List Byte) :
    startsWith b sub = true ↔ ∃ post, b = sub ++ post := by
  induction sub generalizing b with
  | nil => simp [startsWith]
  | cons d ds ih =>
    cases b with
    | nil => simp [startsWith]
    | cons c cs =>
      simp only [startsWith, Bool.and_eq_true, beq_iff_eq, ih, List.cons_append,
        List.cons.injEq]
      constructor
      · rintro ⟨rfl, post, rfl⟩
        exact ⟨post, rfl, rfl⟩
      · rintro ⟨post, rfl, rfl⟩
        exact ⟨rfl, post, rfl⟩

/-- The embedding of `bytes.Contains` decides what the library documents:
whether `sub` is a run of consecutive bytes of `b`. -/
theorem bytesContains_iff (b sub : List Byte) :
    bytesContains b sub = true ↔ ∃ pre post, b = pre ++ sub ++ post := by
  induction b with
  | nil =>
    simp only [bytesContains, startsWith_iff]
    constructor
    · rintro ⟨post, h⟩
      exact ⟨[], post, by simpa using h⟩
    · rintro ⟨pre, post, h⟩
      have h2 := h.symm
      simp only [List.append_eq_nil] at h2
      exact ⟨[], by simp [h2.1.2]⟩
  | cons c cs ih =>
    simp only [bytesContains, Bool.or_eq_true, startsWith_iff, ih]
    constructor
    · rintro (⟨post, h⟩ | ⟨pre, post, h⟩)
      · exact ⟨[], post, by simpa using h⟩
      · exact ⟨c :: pre, post, by simp [h]⟩
    · rintro ⟨pre, post, h⟩
      cases pre with
      | nil => exact Or.inl ⟨post, by simpa using h⟩
      | cons p ps =>
        simp only [List.cons_append, List.cons.injEq] at h
        exact Or.inr ⟨ps, post, h.2⟩

theorem splitDelim_line (delim : Byte) (body rest : List Byte) (hb : delim ∉ body) :
    splitDelim delim (body ++ delim :: rest) = some (body ++ [delim], rest) := by
  induction body with
  | nil => simp [splitDelim]
  | cons c cs ih =>
    have hc : c ≠ delim := fun h => hb (by simp [h])
    have hcs : delim ∉ cs := fun h => hb (by simp [h])
    simp [splitDelim, hc, ih hcs]

theorem splitDelim_none (delim : Byte) (frag : List Byte) (hf : delim ∉ frag) :
    splitDelim delim frag = none := by
  induction frag with
  | nil => rfl
  | cons c cs ih =>
    have hc : c ≠ delim := fun h => hf (by simp [h])
    have hcs : delim ∉ cs := fun h => hf (by simp [h])
    simp [splitDelim, hc, ih hcs]

theorem ReadBytes_line (body rest : List Byte) (t : Error) (hb : newline ∉ body) :
    ReadBytes ⟨body ++ newline :: rest, t⟩ newline = ((body ++ [newline], none), ⟨rest, t⟩) := by
  simp [ReadBytes, splitDelim_line newline body rest hb]

theorem ReadBytes_end (frag : List Byte) (t : Error) (hf : newline ∉ frag) :
    ReadBytes ⟨frag, t⟩ newline = ((frag, some t), ⟨[], t⟩) := by
  simp [ReadBytes, splitDelim_none newline frag hf]

theorem scanLogs_skip (body rest : List Byte) (t : Error) (hb : newline ∉ body)
    (hm : bytesContains (body ++ [newline]) marker = false) :
    scanLogs ⟨body ++ newline :: rest, t⟩ =
      { scanLogs ⟨rest, t⟩ with lines := (scanLogs ⟨rest, t⟩).lines + 1 } := by
  rw [scanLogs]
  split
  · rename_i h; simp [ReadBytes_line body rest t hb] at h
  · rename_i line r1 h
    simp only [ReadBytes_line body rest t hb, Prod.mk.injEq, and_true] at h
    obtain ⟨rfl, rfl⟩ := h
    simp [hm]

theorem scanLogs_hit (body rest : List Byte) (t : Error) (hb : newline ∉ body)
    (hm : bytesContains (body ++ [newline]) marker = true) :
    scanLogs ⟨body ++ newline :: rest, t⟩ = ⟨none, 1, ⟨rest, t⟩⟩ := by
  rw [scanLogs]
  split
  · rename_i h; simp [ReadBytes_line body rest t hb] at h
  · rename_i line r1 h
    simp only [ReadBytes_line body rest t hb, Prod.mk.injEq, and_true] at h
    obtain ⟨rfl, rfl⟩ := h
    simp [hm]

theorem scanLogs_end (frag : List Byte) (t : Error) (hf : newline ∉ frag) :
    scanLogs ⟨frag, t⟩ =
      if t = Error.eof then ⟨none, 0, ⟨[], t⟩⟩ else ⟨some t, 0, ⟨[], t⟩⟩ := by
  rw [scanLogs]
  split
  · rename_i err r1 h
    simp only [ReadBytes_end frag t hf, Prod.mk.injEq, Option.some.injEq, true_and] at h
    obtain ⟨⟨-, rfl⟩, rfl⟩ := h
    rfl
  · rename_i h; simp [ReadBytes_end frag t hf] at h

theorem scanLogs_lines (bodies : List (List Byte)) (rest : List Byte) (t : Error)
    (hb : ∀ body ∈ bodies, newline ∉ body ∧ bytesContains (body ++ [newline]) marker = false) :
    scanLogs ⟨joinLines bodies ++ rest, t⟩ =
      { scanLogs ⟨rest, t⟩ with lines := (scanLogs ⟨rest, t⟩).lines + bodies.length } := by
  induction bodies with
  | nil => simp [joinLines]
  | cons body bs ih =>
    have h1 := hb body (by simp)
    have h2 : ∀ body ∈ bs, newline ∉ body ∧ bytesContains (body ++ [newline]) marker = false :=
      fun x hx => hb x (by simp [hx])
    have e : joinLines (body :: bs) ++ rest = body ++ newline :: (joinLines bs ++ rest) := by
      simp [joinLines]
    rw [e, scanLogs_skip body _ t h1.1 h1.2, ih h2]
    simp only [List.length_cons, Scan.mk.injEq, true_and, and_true]
    omega

theorem ReadBytes_term (r : Stream) (delim : Byte) : (ReadBytes r delim).2.term = r.term := by
  unfold ReadBytes
  split <;> rfl

theorem ReadBytes_error {r r1 : Stream} {delim : Byte} {line : List Byte} {err : Error}
    (h : ReadBytes r delim = ((line, some err), r1)) : err = r.term := by
  unfold ReadBytes at h
  split at h
  · simp at h
  · simp only [Prod.mk.injEq, Option.some.injEq] at h
    exact h.1.2.symm

theorem ReadBytes_shorter {r r1 : Stream} {delim : Byte} {line : List Byte}
    (h : ReadBytes r delim = ((line, none), r1)) : r1.data.length < r.data.length := by
  unfold ReadBytes at h
  cases hs : splitDelim delim r.data with
  | none => simp [hs] at h
  | some p =>
    obtain ⟨l, rest⟩ := p
    simp only [hs, Prod.mk.injEq] at h
    obtain ⟨⟨rfl, -⟩, rfl⟩ := h
    have : ∀ (data line rest : List Byte),
        splitDelim delim data = some (line, rest) → rest.length < data.length := by
      intro data
      induction data with
      | nil => intro line rest hd; simp [splitDelim] at hd
      | cons c cs ih =>
        intro line rest hd
        unfold splitDelim at hd
        split at hd
        · simp only [Option.some.injEq, Prod.mk.injEq] at hd
          obtain ⟨-, rfl⟩ := hd
          simp
        · cases hc : splitDelim delim cs with
          | none => simp [hc] at hd
          | some q =>
            obtain ⟨l2, r2⟩ := q
            simp only [hc, Option.some.injEq, Prod.mk.injEq] at hd
            obtain ⟨-, rfl⟩ := hd
            have := ih l2 r2 hc
            simp only [List.length_cons]
            omega
    exact this _ _ _ hs

/-- The loop of `pullImage` always reads its stream to the end: it returns
with the error that ends the stream, unless that is `io.EOF`. -/
theorem drain_err (r : Stream) :
    (drain r).err = if r.term = Error.eof then none else some r.term := by
  generalize hn : r.data.length = n
  induction n using Nat.strong_induction_on generalizing r with
  | _ n ih =>
    rw [drain]
    split
    · rename_i l err r1 h
      have := ReadBytes_error h
      subst this
      by_cases ht : r.term = Error.eof <;> simp [ht]
    · rename_i l r1 h
      have ht := ReadBytes_term r newline
      rw [h] at ht
      simp only at ht
      have hlt := ReadBytes_shorter h
      rw [ih r1.data.length (by omega) r1 rfl, ht]

/-! ## Order of the requests -/

theorem InOrder.append {lo mid hi : Nat} {t u : List Call}
    (ht : InOrder lo mid t) (hu : InOrder (mid + 1) hi u) (h1 : lo ≤ mid + 1) (h2 : mid ≤ hi) :
    InOrder lo hi (t ++ u) := by
  refine ⟨?_, ?_⟩
  · rw [List.map_append, List.pairwise_append]
    refine ⟨ht.1, hu.1, ?_⟩
    intro x hx y hy
    simp only [List.mem_map] at hx hy
    obtain ⟨c, hc, rfl⟩ := hx
    obtain ⟨d, hd, rfl⟩ := hy
    have := (ht.2 c hc).2
    have := (hu.2 d hd).1
    omega
  · intro c hc
    rcases List.mem_append.mp hc with h | h
    · have := ht.2 c h; omega
    · have := hu.2 c h; omega

theorem pullImage_inOrder (env : Env) (b : Browser) : InOrder 1 2 (pullImage env b).trace := by
  unfold pullImage
  repeat' split
  all_goals simp [InOrder, Call.rank]

theorem pullImage_browser (env : Env) (b : Browser) : (pullImage env b).b = b := by
  unfold pullImage
  repeat' split
  all_goals rfl

theorem createContainer_inOrder (env : Env) (b : Browser) :
    InOrder 3 7 (createContainer env b).trace := by
  unfold createContainer getFreePort
  cases h1 : env.readFile "chrome.json" with
  | error e => simp [InOrder, Call.rank]
  | ok sec =>
    cases h2 : env.resolveTCPAddr with
    | some e => simp [InOrder, Call.rank]
    | none =>
      cases h3 : env.listenTCP with
      | error e => simp [InOrder, Call.rank]
      | ok port =>
        cases h4 : env.listenerClose with
        | some e => simp [InOrder, Call.rank]
        | none =>
          cases h5 : env.containerCreate containerConfig (hostConfig sec port) <;>
            simp [InOrder, Call.rank, h5]

theorem startContainer_inOrder (env : Env) (b : Browser) :
    InOrder 8 10 (startContainer env b).trace := by
  unfold startContainer
  repeat' split
  all_goals simp [InOrder, Call.rank]

theorem startContainer_browser (env : Env) (b : Browser) : (startContainer env b).b = b := by
  unfold startContainer
  repeat' split
  all_goals rfl

theorem getDebugURL_inOrder (env : Env) (port : Int) :
    InOrder 11 12 (getDebugURL env port).2 := by
  unfold getDebugURL
  dsimp only
  repeat' split
  all_goals simp [InOrder, Call.rank]

/-- The URL `getDebugURL` requests for a port. -/
theorem getDebugURL_requests (env : Env) (port : Int) :
    Call.httpGet ("http://localhost:" ++ toString port ++ "/json/version") ∈
      (getDebugURL env port).2 := by
  unfold getDebugURL
  dsimp only
  repeat' split
  all_goals simp

/-- The seven ways a run of `Launch` ends, read off its text. -/
theorem Launch_cases (env : Env) (b : Browser) :
    (∃ e, (pullImage env b).val = some e ∧
      Launch env b = ⟨.ret (some e), b, (pullImage env b).trace⟩) ∨
    (∃ e, (pullImage env b).val = none ∧ (createContainer env b).val = some e ∧
      Launch env b = ⟨.ret (some e), (createContainer env b).b,
        (pullImage env b).trace ++ (createContainer env b).trace⟩) ∨
    (∃ e, (pullImage env b).val = none ∧ (createContainer env b).val = none ∧
      (startContainer env (createContainer env b).b).val = some e ∧
      Launch env b = ⟨.ret (some e), (createContainer env b).b,
        (pullImage env b).trace ++ (createContainer env b).trace ++
          (startContainer env (createContainer env b).b).trace⟩) ∨
    (∃ reason, (pullImage env b).val = none ∧ (createContainer env b).val = none ∧
      (startContainer env (createContainer env b).b).val = none ∧
      (getDebugURL env (createContainer env b).b.Port).1 = .panic reason ∧
      Launch env b = ⟨.panic reason, (createContainer env b).b,
        (pullImage env b).trace ++ (createContainer env b).trace ++
          (startContainer env (createContainer env b).b).trace ++
          (getDebugURL env (createContainer env b).b.Port).2⟩) ∨
    (∃ url e, (pullImage env b).val = none ∧ (createContainer env b).val = none ∧
      (startContainer env (createContainer env b).b).val = none ∧
      (getDebugURL env (createContainer env b).b.Port).1 = .ret (url, some e) ∧
      Launch env b = ⟨.ret (some e), (createContainer env b).b,
        (pullImage env b).trace ++ (createContainer env b).trace ++
          (startContainer env (createContainer env b).b).trace ++
          (getDebugURL env (createContainer env b).b.Port).2⟩) ∨
    (∃ url e, (pullImage env b).val = none ∧ (createContainer env b).val = none ∧
      (startContainer env (createContainer env b).b).val = none ∧
      (getDebugURL env (createContainer env b).b.Port).1 = .ret (url, none) ∧
      env.clientClose = some e ∧
      Launch env b = ⟨.ret (some e), { (createContainer env b).b with DebugURL := url },
        (pullImage env b).trace ++ (createContainer env b).trace ++
          (startContainer env (createContainer env b).b).trace ++
          (getDebugURL env (createContainer env b).b.Port).2 ++ [Call.clientClose]⟩) ∨
    (∃ url, (pullImage env b).val = none ∧ (createContainer env b).val = none ∧
      (startContainer env (createContainer env b).b).val = none ∧
      (getDebugURL env (createContainer env b).b.Port).1 = .ret (url, none) ∧
      env.clientClose = none ∧
      Launch env b =
        ⟨.ret none, { (createContainer env b).b with DebugURL := url, CreationTime := env.now },
        (pullImage env b).trace ++ (createContainer env b).trace ++
          (startContainer env (createContainer env b).b).trace ++
          (getDebugURL env (createContainer env b).b.Port).2 ++
          [Call.clientClose, Call.timeNow]⟩) := by
  have hb := pullImage_browser env b
  have hs := startContainer_browser env (createContainer env b).b
  cases h1 : (pullImage env b).val with
  | some e => left; exact ⟨e, rfl, by simp [Launch, h1, hb]⟩
  | none =>
    right
    cases h2 : (createContainer env b).val with
    | some e => left; exact ⟨e, rfl, rfl, by simp [Launch, h1, h2, hb]⟩
    | none =>
      right
      cases h3 : (startContainer env (createContainer env b).b).val with
      | some e => left; exact ⟨e, rfl, rfl, rfl, by simp [Launch, h1, h2, h3, hb, hs]⟩
      | none =>
        right
        cases h4 : (getDebugURL env (createContainer env b).b.Port).1 with
        | panic reason =>
          left
          exact ⟨reason, rfl, rfl, rfl, rfl, by simp [Launch, h1, h2, h3, h4, hb, hs]⟩
        | ret p =>
          right
          obtain ⟨url, oe⟩ := p
          cases oe with
          | some e =>
            left
            exact ⟨url, e, rfl, rfl, rfl, rfl, by simp [Launch, h1, h2, h3, h4, hb, hs]⟩
          | none =>
            right
            cases h5 : env.clientClose with
            | some e =>
              left
              exact ⟨url, e, rfl, rfl, rfl, rfl, rfl,
                by simp [Launch, h1, h2, h3, h4, h5, hb, hs]⟩
            | none =>
              right
              exact ⟨url, rfl, rfl, rfl, rfl, rfl,
                by simp [Launch, h1, h2, h3, h4, h5, hb, hs]⟩

theorem Launch_pull_error (env : Env) (b : Browser) (e : Error)
    (h1 : (pullImage env b).val = some e) :
    Launch env b = ⟨.ret (some e), b, (pullImage env b).trace⟩ := by
  simp [Launch, h1, pullImage_browser]

theorem Launch_create_error (env : Env) (b : Browser) (e : Error)
    (h1 : (pullImage env b).val = none) (h2 : (createContainer env b).val = some e) :
    Launch env b = ⟨.ret (some e), (createContainer env b).b,
      (pullImage env b).trace ++ (createContainer env b).trace⟩ := by
  simp [Launch, h1, h2, pullImage_browser]

theorem Launch_start_error (env : Env) (b : Browser) (e : Error)
    (h1 : (pullImage env b).val = none) (h2 : (createContainer env b).val = none)
    (h3 : (startContainer env (createContainer env b).b).val = some e) :
    Launch env b = ⟨.ret (some e), (createContainer env b).b,
      (pullImage env b).trace ++ (createContainer env b).trace ++
        (startContainer env (createContainer env b).b).trace⟩ := by
  simp [Launch, h1, h2, h3, pullImage_browser, startContainer_browser]

theorem Launch_fetch_panic (env : Env) (b : Browser) (reason : String)
    (h1 : (pullImage env b).val = none) (h2 : (createContainer env b).val = none)
    (h3 : (startContainer env (createContainer env b).b).val = none)
    (h4 : (getDebugURL env (createContainer env b).b.Port).1 = .panic reason) :
    Launch env b = ⟨.panic reason, (createContainer env b).b,
      (pullImage env b).trace ++ (createContainer env b).trace ++
        (startContainer env (createContainer env b).b).trace ++
        (getDebugURL env (createContainer env b).b.Port).2⟩ := by
  simp [Launch, h1, h2, h3, h4, pullImage_browser, startContainer_browser]

theorem Launch_fetch_error (env : Env) (b : Browser) (url : String) (e : Error)
    (h1 : (pullImage env b).val = none) (h2 : (createContainer env b).val = none)
    (h3 : (startContainer env (createContainer env b).b).val = none)
    (h4 : (getDebugURL env (createContainer env b).b.Port).1 = .ret (url, some e)) :
    Launch env b = ⟨.ret (some e), (createContainer env b).b,
      (pullImage env b).trace ++ (createContainer env b).trace ++
        (startContainer env (createContainer env b).b).trace ++
        (getDebugURL env (createContainer env b).b.Port).2⟩ := by
  simp [Launch, h1, h2, h3, h4, pullImage_browser, startContainer_browser]

theorem Launch_fetched (env : Env) (b : Browser)
    (h1 : (pullImage env b).val = none) (h2 : (createContainer env b).val = none)
    (h3 : (startContainer env (createContainer env b).b).val = none) :
    Call.httpGet ("http://localhost:" ++ toString (createContainer env b).b.Port ++
      "/json/version") ∈ (Launch env b).trace := by
  have hget := getDebugURL_requests env (createContainer env b).b.Port
  rcases Launch_cases env b with ⟨e, h, -⟩ | ⟨e, -, h, -⟩ | ⟨e, -, -, h, -⟩ | ⟨r, -, -, -, -, h⟩ |
    ⟨u, e, -, -, -, -, h⟩ | ⟨u, e, -, -, -, -, -, h⟩ | ⟨u, -, -, -, -, -, h⟩
  · simp [h1] at h
  · simp [h2] at h
  · simp [h3] at h
  all_goals
    rw [h]
    simp only [List.mem_append]
    tauto

theorem step_of_rank (c : Call) :
    (1 ≤ c.rank → c.rank ≤ 2 → c.step = 1) ∧ (1 ≤ c.rank → c.rank ≤ 7 → c.step ≤ 2) ∧
    (1 ≤ c.rank → c.rank ≤ 10 → c.step ≤ 3) ∧ (1 ≤ c.rank → c.rank ≤ 12 → c.step ≤ 4) := by
  unfold Call.step
  refine ⟨?_, ?_, ?_, ?_⟩ <;> intro h1 h2 <;> split_ifs <;> omega

theorem InOrder.mono {lo hi lo2 hi2 : Nat} {t : List Call} (h : InOrder lo hi t)
    (h1 : lo2 ≤ lo) (h2 : hi ≤ hi2) : InOrder lo2 hi2 t :=
  ⟨h.1, fun c hc => ⟨le_trans h1 (h.2 c hc).1, le_trans (h.2 c hc).2 h2⟩⟩

/-- The requests of the first three steps, in order. -/
theorem steps_inOrder (env : Env) (b : Browser) :
    InOrder 1 2 (pullImage env b).trace ∧
    InOrder 1 7 ((pullImage env b).trace ++ (createContainer env b).trace) ∧
    InOrder 1 10 ((pullImage env b).trace ++ (createContainer env b).trace ++
      (startContainer env (createContainer env b).b).trace) ∧
    InOrder 1 12 ((pullImage env b).trace ++ (createContainer env b).trace ++
      (startContainer env (createContainer env b).b).trace ++
      (getDebugURL env (createContainer env b).b.Port).2) := by
  have p1 := pullImage_inOrder env b
  have p2 := InOrder.append p1 (createContainer_inOrder env b) (by omega) (by omega)
  have p3 := InOrder.append p2
    ((startContainer_inOrder env (createContainer env b).b).mono (by omega) (le_refl _))
    (by omega) (by omega)
  have p4 := InOrder.append p3
    ((getDebugURL_inOrder env (createContainer env b).b.Port).mono (by omega) (le_refl _))
    (by omega) (by omega)
  exact ⟨p1, p2, p3, p4⟩

theorem Launch_inOrder (env : Env) (b : Browser) : InOrder 1 14 (Launch env b).trace := by
  obtain ⟨p1, p2, p3, p4⟩ := steps_inOrder env b
  have q1 : InOrder 13 14 [Call.clientClose] := by simp [InOrder, Call.rank]
  have q2 : InOrder 13 14 [Call.clientClose, Call.timeNow] := by simp [InOrder, Call.rank]
  rcases Launch_cases env b with ⟨e, -, h⟩ | ⟨e, -, -, h⟩ | ⟨e, -, -, -, h⟩ | ⟨r, -, -, -, -, h⟩ |
    ⟨u, e, -, -, -, -, h⟩ | ⟨u, e, -, -, -, -, -, h⟩ | ⟨u, -, -, -, -, -, h⟩ <;> rw [h]
  · exact p1.mono (le_refl _) (by omega)
  · exact p2.mono (le_refl _) (by omega)
  · exact p3.mono (le_refl _) (by omega)
  · exact p4.mono (le_refl _) (by omega)
  · exact p4.mono (le_refl _) (by omega)
  · exact InOrder.append p4 q1 (by omega) (by omega)
  · exact InOrder.append p4 q2 (by omega) (by omega)

theorem pullImage_first (env : Env) (b : Browser) :
    ∃ rest, (pullImage env b).trace = Call.imagePull dockerImage imagePullLimit :: rest := by
  unfold pullImage
  repeat' split
  all_goals simp

theorem Launch_first (env : Env) (b : Browser) :
    (Launch env b).trace.head? = some (Call.imagePull dockerImage imagePullLimit) := by
  obtain ⟨rest, hr⟩ := pullImage_first env b
  rcases Launch_cases env b with ⟨e, -, h⟩ | ⟨e, -, -, h⟩ | ⟨e, -, -, -, h⟩ | ⟨r, -, -, -, -, h⟩ |
    ⟨u, e, -, -, -, -, h⟩ | ⟨u, e, -, -, -, -, -, h⟩ | ⟨u, -, -, -, -, -, h⟩ <;>
    rw [h] <;> simp [hr]

/-! ## Running the steps -/

theorem pullImage_val (env : Env) (b : Browser) :
    (pullImage env b).val =
      match env.imagePull dockerImage with
      | .error err => some err
      | .ok reader => if reader.term = Error.eof then env.pullClose else some reader.term := by
  unfold pullImage
  cases h : env.imagePull dockerImage with
  | error err => rfl
  | ok reader =>
    simp only []
    rw [drain_err]
    by_cases ht : reader.term = Error.eof <;> simp [ht]

theorem startContainer_of_scan (env : Env) (b : Browser) (reader : Stream)
    (hstart : env.containerStart b.ID = none) (hlogs : env.containerLogs b.ID = .ok reader)
    (hscan : (scanLogs reader).err = none) :
    startContainer env b =
      { val := env.logsClose, b := b,
        trace := [Call.containerStart b.ID, Call.containerLogs b.ID true true, Call.logsClose],
        scan := some (scanLogs reader) } := by
  simp [startContainer, hstart, hlogs, hscan]

/-- The scan loop on lines without the marker followed by a line with it: it
stops right after the marker line. -/
theorem scanLogs_stops (bodies : List (List Byte)) (mbody further : List Byte) (t : Error)
    (hlines : ∀ body ∈ bodies,
      newline ∉ body ∧ bytesContains (body ++ [newline]) marker = false)
    (hnl : newline ∉ mbody) (hmark : bytesContains (mbody ++ [newline]) marker = true) :
    scanLogs ⟨joinLines bodies ++ (mbody ++ [newline]) ++ further, t⟩ =
      ⟨none, bodies.length + 1, ⟨further, t⟩⟩ := by
  have e : joinLines bodies ++ (mbody ++ [newline]) ++ further =
      joinLines bodies ++ (mbody ++ newline :: further) := by simp
  rw [e, scanLogs_lines bodies _ t hlines, scanLogs_hit mbody further t hnl hmark]
  simp only [Scan.mk.injEq, true_and, and_true]
  omega

/-- The scan loop on lines without the marker followed by an unterminated
tail: it reads everything and ends with the error that ends the stream, unless
that is `io.EOF`. -/
theorem scanLogs_exhausts (bodies : List (List Byte)) (frag : List Byte) (t : Error)
    (hlines : ∀ body ∈ bodies,
      newline ∉ body ∧ bytesContains (body ++ [newline]) marker = false)
    (hfrag : newline ∉ frag) :
    scanLogs ⟨joinLines bodies ++ frag, t⟩ =
      ⟨if t = Error.eof then none else some t, bodies.length, ⟨[], t⟩⟩ := by
  rw [scanLogs_lines bodies _ _ hlines, scanLogs_end frag _ hfrag]
  by_cases ht : t = Error.eof <;> simp [ht]

theorem createContainer_created (env : Env) (b : Browser)
    (h : (createContainer env b).val = none) :
    ∃ sec port,
      Call.containerCreate containerConfig (hostConfig sec port) ∈ (createContainer env b).trace ∧
      env.containerCreate containerConfig (hostConfig sec port) =
        .ok (createContainer env b).b.ID ∧
      (createContainer env b).b.Port = port := by
  unfold createContainer getFreePort at h ⊢
  cases h1 : env.readFile "chrome.json" with
  | error e => simp [h1] at h
  | ok sec =>
    cases h2 : env.resolveTCPAddr with
    | some e => simp [h1, h2] at h
    | none =>
      cases h3 : env.listenTCP with
      | error e => simp [h1, h2, h3] at h
      | ok port =>
        cases h4 : env.listenerClose with
        | some e => simp [h1, h2, h3, h4] at h
        | none =>
          cases h5 : env.containerCreate containerConfig (hostConfig sec port) with
          | error e => simp [h1, h2, h3, h4, h5] at h
          | ok id => exact ⟨sec, port, by simp [h5], by simp [h5], by simp [h5]⟩

/-- The fields `createContainer` leaves alone. -/
theorem createContainer_frame (env : Env) (b : Browser) :
    (createContainer env b).b.CreationTime = b.CreationTime ∧
    (createContainer env b).b.DebugURL = b.DebugURL ∧
    (createContainer env b).b.dockerCLI = b.dockerCLI := by
  unfold createContainer getFreePort
  cases h1 : env.readFile "chrome.json" with
  | error e => simp
  | ok sec =>
    cases h2 : env.resolveTCPAddr with
    | some e => simp
    | none =>
      cases h3 : env.listenTCP with
      | error e => simp
      | ok port =>
        cases h4 : env.listenerClose with
        | some e => simp
        | none =>
          cases h5 : env.containerCreate containerConfig (hostConfig sec port) <;> simp [h5]

theorem Launch_success (env : Env) (b : Browser) (url : String)
    (h1 : (pullImage env b).val = none) (h2 : (createContainer env b).val = none)
    (h3 : (startContainer env (createContainer env b).b).val = none)
    (h4 : (getDebugURL env (createContainer env b).b.Port).1 = .ret (url, none))
    (h5 : env.clientClose = none) :
    Launch env b =
      ⟨.ret none, { (createContainer env b).b with DebugURL := url, CreationTime := env.now },
        (pullImage env b).trace ++ (createContainer env b).trace ++
          (startContainer env (createContainer env b).b).trace ++
          (getDebugURL env (createContainer env b).b.Port).2 ++
          [Call.clientClose, Call.timeNow]⟩ := by
  simp [Launch, h1, h2, h3, h4, h5, pullImage_browser, startContainer_browser]

/-- The run of `envReady` gets through the readiness scan. -/
theorem envReady_started :
    (startContainer envReady (createContainer envReady browserFresh).b).val = none := by
  have hscan := scanLogs_stops [ascii "boot"] (ascii "on ws://x") (ascii "later\n") Error.eof
    (by decide) (by decide) (by decide)
  rw [startContainer_of_scan envReady _ _ rfl rfl (by rw [hscan])]
  rfl

/-- The run of `envReady` succeeds. -/
theorem envReady_launched : (Launch envReady browserFresh).val = .ret none := by
  rw [Launch_success envReady browserFresh "ws://localhost:40000/x"
    (by rw [pullImage_val]; rfl) rfl envReady_started rfl rfl]

theorem isRemove_rank (c : Call) (h : c.isRemove = true) : c.rank = 0 := by
  cases c <;> first | rfl | simp [Call.isRemove] at h

/-! ## C1: a stream that ends without the marker -/

/-- C1, as the code has it: when the output stream ends (`io.EOF`) and none of
its newline-terminated lines contains the marker, with start, log attach and
close succeeding, the run of `startContainer` reads the stream to its end,
closes it and returns nil, and `Launch`, whose earlier steps succeeded, goes
on to request the debug URL. -/
theorem startContainer_stream_ends (env : Env) (b0 : Browser)
    (bodies : List (List Byte)) (frag : List Byte)
    (hlines : ∀ body ∈ bodies,
      newline ∉ body ∧ bytesContains (body ++ [newline]) marker = false)
    (hfrag : newline ∉ frag)
    (hpull : (pullImage env b0).val = none)
    (hcreate : (createContainer env b0).val = none)
    (hstart : env.containerStart (createContainer env b0).b.ID = none)
    (hlogs : env.containerLogs (createContainer env b0).b.ID =
      .ok ⟨joinLines bodies ++ frag, Error.eof⟩)
    (hclose : env.logsClose = none) :
    scanLogs ⟨joinLines bodies ++ frag, Error.eof⟩ =
      ⟨none, bodies.length, ⟨[], Error.eof⟩⟩ ∧
    (startContainer env (createContainer env b0).b).scan =
      some ⟨none, bodies.length, ⟨[], Error.eof⟩⟩ ∧
    (startContainer env (createContainer env b0).b).val = none ∧
    Call.logsClose ∈ (startContainer env (createContainer env b0).b).trace ∧
    Call.httpGet ("http://localhost:" ++ toString (createContainer env b0).b.Port ++
      "/json/version") ∈ (Launch env b0).trace := by
  have hscan := scanLogs_exhausts bodies frag Error.eof hlines hfrag
  simp only [if_true] at hscan
  have hrun := startContainer_of_scan env _ _ hstart hlogs (by rw [hscan])
  have h3 : (startContainer env (createContainer env b0).b).val = none := by
    rw [hrun]; exact hclose
  refine ⟨hscan, by rw [hrun, hscan], h3, by rw [hrun]; simp,
    Launch_fetched env b0 hpull hcreate h3⟩

/-- The run of `envSilent`: one line and an unterminated tail without the marker,
then the end of the stream. -/
theorem startContainer_stream_ends_witness :
    scanLogs ⟨joinLines [ascii "boot"] ++ ascii "tail", Error.eof⟩ =
      ⟨none, 1, ⟨[], Error.eof⟩⟩ ∧
    (startContainer envSilent (createContainer envSilent browserFresh).b).scan =
      some ⟨none, 1, ⟨[], Error.eof⟩⟩ ∧
    (startContainer envSilent (createContainer envSilent browserFresh).b).val = none ∧
    Call.logsClose ∈ (startContainer envSilent (createContainer envSilent browserFresh).b).trace ∧
    Call.httpGet ("http://localhost:" ++
      toString (createContainer envSilent browserFresh).b.Port ++ "/json/version") ∈
      (Launch envSilent browserFresh).trace :=
  startContainer_stream_ends envSilent browserFresh [ascii "boot"] (ascii "tail")
    (by decide) (by decide) (by rw [pullImage_val]; rfl) rfl rfl rfl rfl

/-- C1, as stated, fails on the empty stream: start, log attach and close
succeed, the output ends at once without any line, and `startContainer`
returns nil instead of an error; `Launch` then requests the debug URL. -/
theorem startContainer_empty_stream :
    envMute.containerStart browserReady.ID = none ∧
    envMute.containerLogs browserReady.ID = .ok ⟨[], Error.eof⟩ ∧
    envMute.logsClose = none ∧
    (startContainer envMute browserReady).val = none ∧
    Call.httpGet "http://localhost:40000/json/version" ∈ (Launch envMute browserFresh).trace := by
  have hscan : (scanLogs ⟨[], Error.eof⟩).err = none := by
    rw [scanLogs_end [] Error.eof (by simp)]
    rfl
  have hrun : ∀ b, (startContainer envMute b).val = none := by
    intro b
    rw [startContainer_of_scan envMute b ⟨[], Error.eof⟩ rfl rfl hscan]
    rfl
  exact ⟨rfl, rfl, rfl, hrun _,
    Launch_fetched envMute browserFresh (by rw [pullImage_val]; rfl) rfl (hrun _)⟩

/-! ## C2: validity threshold -/

/-- C2, as the code has it: `ValidateObject` returns true exactly when the
elapsed age, the clock reading minus `CreationTime`, is at most one second, and
false exactly when the age is strictly greater than one second.  The saturation
of `Time.Sub` does not change the verdict. -/
theorem ValidateObject_threshold (env : Env) (object : PooledObject) :
    ((ValidateObject env object).1 = true ↔ env.now - object.Object.CreationTime ≤ 1000000000) ∧
    ((ValidateObject env object).1 = false ↔ env.now - object.Object.CreationTime > 1000000000) := by
  have arith : ∀ a c : Int,
      ((1000000000 < if 9223372036854775807 < a - c then 9223372036854775807
        else if a - c < -9223372036854775808 then -9223372036854775808 else a - c) ↔
        1000000000 < a - c) := by
    intro a c
    split_ifs <;> omega
  have key : Since env.now object.Object.CreationTime > maxBrowserAge ↔
      env.now - object.Object.CreationTime > 1000000000 := by
    unfold Since Time.Sub maxBrowserAge Second maxDuration minDuration
    norm_num
    exact arith _ _
  have le_iff : ∀ a : Int, ¬ a > 1000000000 ↔ a ≤ 1000000000 := by
    intro a
    omega
  unfold ValidateObject
  by_cases h : Since env.now object.Object.CreationTime > maxBrowserAge
  · have h2 := key.mp h
    have h3 := (not_iff_not.mpr (le_iff _)).mp (not_not.mpr h2)
    simp only [h, if_true]
    exact ⟨⟨fun hf => by simp at hf, fun hle => absurd hle h3⟩, ⟨fun _ => h2, fun _ => trivial⟩⟩
  · have h2 : ¬ env.now - object.Object.CreationTime > 1000000000 := fun h3 => h (key.mpr h3)
    have h3 := (le_iff _).mp h2
    simp only [h, if_false]
    exact ⟨⟨fun _ => h3, fun _ => trivial⟩, ⟨fun hf => by simp at hf, fun hgt => absurd hgt h2⟩⟩

/-- C2, as stated, fails at an age of exactly one second: the elapsed age
equals `maxBrowserAge`, and `ValidateObject` answers true. -/
theorem ValidateObject_exactly_one_second :
    envOneSecond.now - browserReady.CreationTime = maxBrowserAge ∧
    maxBrowserAge = 1000000000 ∧
    (ValidateObject envOneSecond ⟨browserReady⟩).1 = true := by
  decide

/-! ## C3: malformed metadata -/

/-- C3 at its failing inputs: when the decoded object is empty, or maps the key
to the number 42, `getDebugURL` panics at the type assertion instead of
returning an error, and `Launch` and `MakeObject` panic with it. -/
theorem getDebugURL_malformed_panics :
    (getDebugURL envEmptyObject 40000).1 =
      .panic "interface conversion: interface \x7b\x7d is nil, not string" ∧
    (getDebugURL envNumber 40000).1 =
      .panic "interface conversion: interface \x7b\x7d is float64, not string" ∧
    (Launch envEmptyObject browserFresh).val =
      .panic "interface conversion: interface \x7b\x7d is nil, not string" ∧
    (MakeObject envEmptyObject).1 =
      .panic "interface conversion: interface \x7b\x7d is nil, not string" := by
  have hscan := scanLogs_stops [ascii "boot"] (ascii "on ws://x") (ascii "later\n") Error.eof
    (by decide) (by decide) (by decide)
  have h3 : (startContainer envEmptyObject (createContainer envEmptyObject browserFresh).b).val =
      none := by
    rw [startContainer_of_scan envEmptyObject _ _ rfl rfl (by rw [hscan])]
    rfl
  have hl := Launch_fetch_panic envEmptyObject browserFresh _
    (by rw [pullImage_val]; rfl) rfl h3 rfl
  refine ⟨rfl, by decide, by rw [hl], ?_⟩
  have hn : (NewBrowser envEmptyObject).1 = .ok browserFresh := rfl
  simp [MakeObject, hn, hl]

/-! ## C4: the readiness scan stops at the marker -/

/-- C4: on an output stream of `N` newline-terminated lines without the
marker, then a newline-terminated line with the marker, then anything at all,
with start, log attach and close succeeding, the run of `startContainer` takes
exactly `N + 1` lines from the stream it attached to and leaves everything
after the marker line unread, then closes the stream and returns nil: its only
requests are start, log attach and close, in that order. -/
theorem startContainer_stops_at_marker (env : Env) (b : Browser)
    (bodies : List (List Byte)) (mbody further : List Byte) (t : Error)
    (hlines : ∀ body ∈ bodies,
      newline ∉ body ∧ bytesContains (body ++ [newline]) marker = false)
    (hnl : newline ∉ mbody) (hmark : bytesContains (mbody ++ [newline]) marker = true)
    (hstart : env.containerStart b.ID = none)
    (hlogs : env.containerLogs b.ID =
      .ok ⟨joinLines bodies ++ (mbody ++ [newline]) ++ further, t⟩)
    (hclose : env.logsClose = none) :
    (startContainer env b).scan = some ⟨none, bodies.length + 1, ⟨further, t⟩⟩ ∧
    (startContainer env b).val = none ∧
    (startContainer env b).trace =
      [Call.containerStart b.ID, Call.containerLogs b.ID true true, Call.logsClose] := by
  have hscan := scanLogs_stops bodies mbody further t hlines hnl hmark
  have hrun := startContainer_of_scan env b _ hstart hlogs (by rw [hscan])
  refine ⟨?_, ?_, ?_⟩
  · rw [hrun, hscan]
  · rw [hrun]; exact hclose
  · rw [hrun]

/-- The run of `envReady`: one line without the marker, the marker line, one
more line that stays unread. -/
theorem startContainer_stops_at_marker_witness :
    envReady.containerLogs browserReady.ID =
      .ok ⟨ascii "boot\non ws://x\nlater\n", Error.eof⟩ ∧
    (startContainer envReady browserReady).scan =
      some ⟨none, 2, ⟨ascii "later\n", Error.eof⟩⟩ ∧
    (startContainer envReady browserReady).val = none ∧
    (startContainer envReady browserReady).trace =
      [Call.containerStart "c0ffee", Call.containerLogs "c0ffee" true true, Call.logsClose] :=
  ⟨rfl,
    startContainer_stops_at_marker envReady browserReady [ascii "boot"] (ascii "on ws://x")
      (ascii "later\n") Error.eof (by decide) (by decide) (by decide) rfl rfl rfl⟩

/-! ## C6: strictly sequential provisioning with abort -/

/-- C6: `Launch` sends its requests in the order image pull (with the
one-minute limit), container creation with port reservation, container start and
readiness scan, metadata fetch, each request at most once; when a step returns
an error, `Launch` returns exactly that error and its trace holds no request of
a later step.  When the image pull fails, only requests of the pull step were
sent and the `Browser`, its `ID` included, is unchanged. -/
theorem Launch_sequential (env : Env) (b : Browser) :
    InOrder 1 14 (Launch env b).trace ∧
    (Launch env b).trace.head? = some (Call.imagePull dockerImage imagePullLimit) ∧
    imagePullLimit = 60 * 1000000000 ∧
    (∀ e, (pullImage env b).val = some e →
      (Launch env b).val = .ret (some e) ∧ (∀ c ∈ (Launch env b).trace, c.step = 1) ∧
      (Launch env b).b = b) ∧
    (∀ e, (pullImage env b).val = none → (createContainer env b).val = some e →
      (Launch env b).val = .ret (some e) ∧ ∀ c ∈ (Launch env b).trace, c.step ≤ 2) ∧
    (∀ e, (pullImage env b).val = none → (createContainer env b).val = none →
      (startContainer env (createContainer env b).b).val = some e →
      (Launch env b).val = .ret (some e) ∧ ∀ c ∈ (Launch env b).trace, c.step ≤ 3) ∧
    (∀ url e, (pullImage env b).val = none → (createContainer env b).val = none →
      (startContainer env (createContainer env b).b).val = none →
      (getDebugURL env (createContainer env b).b.Port).1 = .ret (url, some e) →
      (Launch env b).val = .ret (some e) ∧ ∀ c ∈ (Launch env b).trace, c.step ≤ 4) := by
  obtain ⟨p1, p2, p3, p4⟩ := steps_inOrder env b
  refine ⟨Launch_inOrder env b, Launch_first env b, by decide, ?_, ?_, ?_, ?_⟩
  · intro e h1
    rw [Launch_pull_error env b e h1]
    exact ⟨rfl, fun c hc => (step_of_rank c).1 (p1.2 c hc).1 (p1.2 c hc).2, rfl⟩
  · intro e h1 h2
    rw [Launch_create_error env b e h1 h2]
    exact ⟨rfl, fun c hc => (step_of_rank c).2.1 (p2.2 c hc).1 (p2.2 c hc).2⟩
  · intro e h1 h2 h3
    rw [Launch_start_error env b e h1 h2 h3]
    exact ⟨rfl, fun c hc => (step_of_rank c).2.2.1 (p3.2 c hc).1 (p3.2 c hc).2⟩
  · intro url e h1 h2 h3 h4
    rw [Launch_fetch_error env b url e h1 h2 h3 h4]
    exact ⟨rfl, fun c hc => (step_of_rank c).2.2.2 (p4.2 c hc).1 (p4.2 c hc).2⟩

/-- Three aborted runs: the pull is refused, the pull deadline expires while
the progress stream is read, the container fails to start. -/
theorem Launch_sequential_witness :
    ((Launch envPullRefused browserFresh).val = .ret (some (.msg "pull access denied")) ∧
      (∀ c ∈ (Launch envPullRefused browserFresh).trace, c.step = 1) ∧
      (Launch envPullRefused browserFresh).b = browserFresh) ∧
    ((Launch envPullExpires browserFresh).val = .ret (some (.msg "context deadline exceeded")) ∧
      (∀ c ∈ (Launch envPullExpires browserFresh).trace, c.step = 1) ∧
      (Launch envPullExpires browserFresh).b = browserFresh) ∧
    ((Launch envStartFails browserFresh).val = .ret (some (.msg "port is already allocated")) ∧
      ∀ c ∈ (Launch envStartFails browserFresh).trace, c.step ≤ 3) :=
  ⟨(Launch_sequential envPullRefused browserFresh).2.2.2.1 _ rfl,
    (Launch_sequential envPullExpires browserFresh).2.2.2.1 _ (by rw [pullImage_val]; rfl),
    (Launch_sequential envStartFails browserFresh).2.2.2.2.2.1 _
      (by rw [pullImage_val]; rfl) rfl rfl⟩

/-! ## C7: the creation timestamp marks readiness -/

/-- C7: on a `Browser` fresh from `NewBrowser`, `Launch` reads the clock if and
only if it returns nil; when it returns nil, `CreationTime` is that clock
reading, `DebugURL` is the URL the metadata fetch returned, and the clock was
read last, after the metadata request and the closing of the client; on every
other run `CreationTime` keeps its zero value. -/
theorem Launch_stamps_when_ready (env : Env) (b : Browser)
    (hfresh : (NewBrowser env).1 = .ok b) :
    ((Launch env b).val = .ret none ↔ Call.timeNow ∈ (Launch env b).trace) ∧
    ((Launch env b).val = .ret none →
      (Launch env b).b.CreationTime = env.now ∧
      (getDebugURL env (Launch env b).b.Port).1 = .ret ((Launch env b).b.DebugURL, none) ∧
      ∃ pre, (Launch env b).trace = pre ++ [Call.clientClose, Call.timeNow] ∧
        Call.httpGet ("http://localhost:" ++ toString (Launch env b).b.Port ++
          "/json/version") ∈ pre ∧
        Call.timeNow ∉ pre) ∧
    ((Launch env b).val ≠ .ret none → (Launch env b).b.CreationTime = Time.zero) := by
  have hzero : b.CreationTime = Time.zero := by
    unfold NewBrowser at hfresh
    cases hn : env.newClient with
    | error e => simp [hn] at hfresh
    | ok cli =>
      simp only [hn, Except.ok.injEq] at hfresh
      rw [← hfresh]
  have hczero := (createContainer_frame env b).1
  obtain ⟨p1, p2, p3, p4⟩ := steps_inOrder env b
  have no14 : ∀ {t : List Call} {hi : Nat}, InOrder 1 hi t → hi ≤ 13 → Call.timeNow ∉ t := by
    intro t hi ht hle hmem
    have := (ht.2 _ hmem).2
    simp only [Call.rank] at this
    omega
  have q1 : InOrder 13 13 [Call.clientClose] := by simp [InOrder, Call.rank]
  rcases Launch_cases env b with ⟨e, -, h⟩ | ⟨e, -, -, h⟩ | ⟨e, -, -, -, h⟩ | ⟨r, -, -, -, -, h⟩ |
    ⟨u, e, -, -, -, -, h⟩ | ⟨u, e, -, -, -, -, -, h⟩ | ⟨u, -, -, -, h4, -, h⟩
  · rw [h]
    exact ⟨⟨fun hv => by simp at hv, fun hm => absurd hm (no14 p1 (by omega))⟩,
      fun hv => by simp at hv, fun _ => hzero⟩
  · rw [h]
    exact ⟨⟨fun hv => by simp at hv, fun hm => absurd hm (no14 p2 (by omega))⟩,
      fun hv => by simp at hv, fun _ => hczero.trans hzero⟩
  · rw [h]
    exact ⟨⟨fun hv => by simp at hv, fun hm => absurd hm (no14 p3 (by omega))⟩,
      fun hv => by simp at hv, fun _ => hczero.trans hzero⟩
  · rw [h]
    exact ⟨⟨fun hv => by simp at hv, fun hm => absurd hm (no14 p4 (by omega))⟩,
      fun hv => by simp at hv, fun _ => hczero.trans hzero⟩
  · rw [h]
    exact ⟨⟨fun hv => by simp at hv, fun hm => absurd hm (no14 p4 (by omega))⟩,
      fun hv => by simp at hv, fun _ => hczero.trans hzero⟩
  · rw [h]
    exact ⟨⟨fun hv => by simp at hv,
        fun hm => absurd hm (no14 (InOrder.append p4 q1 (by omega) (by omega)) (by omega))⟩,
      fun hv => by simp at hv, fun _ => hczero.trans hzero⟩
  · rw [h]
    refine ⟨⟨fun _ => by simp, fun _ => rfl⟩, fun _ => ⟨rfl, h4, ?_⟩, fun hv => absurd rfl hv⟩
    refine ⟨_, by rw [List.append_assoc], ?_, no14 p4 (by omega)⟩
    simp only [List.mem_append]
    exact Or.inr (getDebugURL_requests env _)

/-- The run of `envReady` on a fresh `Browser`: `Launch` returns nil and the
`Browser` carries the clock reading of that run. -/
theorem Launch_stamps_when_ready_witness :
    (NewBrowser envReady).1 = .ok browserFresh ∧
    (Launch envReady browserFresh).val = .ret none ∧
    (Launch envReady browserFresh).b.CreationTime = envReady.now :=
  ⟨rfl, envReady_launched,
    ((Launch_stamps_when_ready envReady browserFresh rfl).2.1 envReady_launched).1⟩

/-! ## C8: the factory surfaces errors unchanged -/

/-- C8: when `NewBrowser` or `Launch` returns an error, `MakeObject` returns a
nil object together with that very error; `MakeObject` returns a pooled
object only when `Launch` returned nil, the object then wraps the launched
`Browser` and the error is nil; it never returns a nil object with a nil
error. -/
theorem MakeObject_surfaces_errors (env : Env) :
    (∀ e, (NewBrowser env).1 = .error e → (MakeObject env).1 = .ret (none, some e)) ∧
    (∀ b e, (NewBrowser env).1 = .ok b → (Launch env b).val = .ret (some e) →
      (MakeObject env).1 = .ret (none, some e)) ∧
    (∀ p oe, (MakeObject env).1 = .ret (some p, oe) →
      oe = none ∧ ∃ b, (NewBrowser env).1 = .ok b ∧ (Launch env b).val = .ret none ∧
        p = ⟨(Launch env b).b⟩) ∧
    (MakeObject env).1 ≠ .ret (none, none) := by
  refine ⟨?_, ?_, ?_, ?_⟩
  · intro e hn
    simp [MakeObject, hn]
  · intro b e hn hl
    simp [MakeObject, hn, hl]
  · intro p oe h
    unfold MakeObject at h
    cases hn : (NewBrowser env).1 with
    | error e => simp [hn] at h
    | ok b =>
      cases hl : (Launch env b).val with
      | panic r => simp [hn, hl] at h
      | ret oerr =>
        cases oerr with
        | some e => simp [hn, hl] at h
        | none =>
          simp only [hn, hl, Outcome.ret.injEq, Prod.mk.injEq, Option.some.injEq] at h
          exact ⟨h.2.symm, b, rfl, hl, h.1.symm⟩
  · intro h
    unfold MakeObject at h
    cases hn : (NewBrowser env).1 with
    | error e => simp [hn] at h
    | ok b =>
      cases hl : (Launch env b).val with
      | panic r => simp [hn, hl] at h
      | ret oerr =>
        cases oerr with
        | some e => simp [hn, hl] at h
        | none => simp [hn, hl] at h

/-- Two failing runs: no client can be built, and the pull is refused. -/
theorem MakeObject_surfaces_errors_witness :
    (MakeObject envNoClient).1 = .ret (none, some (.msg "invalid DOCKER_HOST")) ∧
    (MakeObject envPullRefused).1 = .ret (none, some (.msg "pull access denied")) :=
  ⟨(MakeObject_surfaces_errors envNoClient).1 _ rfl,
    (MakeObject_surfaces_errors envPullRefused).2.1 browserFresh _ rfl
      (by rw [Launch_pull_error envPullRefused browserFresh _ rfl])⟩

/-! ## C9: decommissioning -/

/-- C9, as the code has it: when the Docker client can be built, `Close` sends
exactly one remove request, with force enabled, for the `ID` of its `Browser`
and for no other, and returns the backend's answer to it unchanged, hence no
error when the backend reports none; `DestroyObject` does the same.  When the
client cannot be built, `Close` returns that error and sends no remove
request. -/
theorem Close_forced_removal (env : Env) (b : Browser) :
    (∀ cli, env.newClient = .ok cli →
      (Close env b).trace.filter Call.isRemove = [Call.containerRemove b.ID true] ∧
      (Close env b).val = env.containerRemove b.ID true ∧
      (env.containerRemove b.ID true = none → (Close env b).val = none) ∧
      (DestroyObject env ⟨b⟩).trace.filter Call.isRemove = [Call.containerRemove b.ID true] ∧
      (DestroyObject env ⟨b⟩).val = env.containerRemove b.ID true) ∧
    (∀ e, env.newClient = .error e →
      (Close env b).trace.filter Call.isRemove = [] ∧ (Close env b).val = some e) := by
  constructor
  · intro cli hn
    simp [Close, DestroyObject, hn, Call.isRemove]
  · intro e hn
    simp [Close, hn, Call.isRemove]

/-- The run of `envReady`: one forced remove request for the identifier. -/
theorem Close_forced_removal_witness :
    (Close envReady browserReady).trace.filter Call.isRemove =
      [Call.containerRemove "c0ffee" true] ∧
    (Close envReady browserReady).val = none :=
  ⟨((Close_forced_removal envReady browserReady).1 ⟨1⟩ rfl).1,
    ((Close_forced_removal envReady browserReady).1 ⟨1⟩ rfl).2.2.1 rfl⟩

/-- C9, as stated, fails when no Docker client can be built: the `Browser` has
an `ID`, the backend would answer a forced removal of it without error, and yet
`Close` sends no remove request and returns an error. -/
theorem Close_without_client :
    browserReady.ID = "c0ffee" ∧
    envNoClient.containerRemove browserReady.ID true = none ∧
    (Close envNoClient browserReady).trace.filter Call.isRemove = [] ∧
    (Close envNoClient browserReady).val = some (.msg "invalid DOCKER_HOST") := by
  decide

/-! ## C10: no cleanup after a late provisioning failure -/

/-- C10: `MakeObject` never sends a remove request; and when container
creation succeeded, so that an identifier was assigned, and `Launch` then
returns an error, `MakeObject` returns a nil object with that error, although
its trace holds the create request the backend answered with the identifier
that the discarded `Browser` carries. -/
theorem MakeObject_never_removes (env : Env) :
    (∀ c ∈ (MakeObject env).2, c.isRemove = false) ∧
    (∀ b0 e, (NewBrowser env).1 = .ok b0 → (pullImage env b0).val = none →
      (createContainer env b0).val = none → (Launch env b0).val = .ret (some e) →
      (MakeObject env).1 = .ret (none, some e) ∧
      ∃ config host, Call.containerCreate config host ∈ (MakeObject env).2 ∧
        env.containerCreate config host = .ok (Launch env b0).b.ID) := by
  have hnew : (NewBrowser env).2 = [Call.newClient] := by
    unfold NewBrowser
    split <;> rfl
  have hlaunch : ∀ b, ∀ c ∈ (Launch env b).trace, c.isRemove = false := by
    intro b c hc
    have h1 := ((Launch_inOrder env b).2 c hc).1
    cases hr : c.isRemove with
    | false => rfl
    | true =>
      have := isRemove_rank c hr
      omega
  constructor
  · intro c hc
    unfold MakeObject at hc
    cases hn : (NewBrowser env).1 with
    | error e =>
      simp only [hn, hnew, List.mem_singleton] at hc
      rw [hc]; rfl
    | ok b =>
      have hmem : c = Call.newClient ∨ c ∈ (Launch env b).trace ∨
          c = Call.logDebug "created browser" (Launch env b).b.ID := by
        cases hl : (Launch env b).val with
        | panic r =>
          simp only [hn, hl, hnew, List.mem_append, List.mem_singleton] at hc
          tauto
        | ret oerr =>
          cases oerr with
          | some e =>
            simp only [hn, hl, hnew, List.mem_append, List.mem_singleton] at hc
            tauto
          | none =>
            simp only [hn, hl, hnew, List.mem_append, List.mem_singleton] at hc
            tauto
      rcases hmem with h | h | h
      · rw [h]; rfl
      · exact hlaunch b c h
      · rw [h]; rfl
  · intro b0 e hn h1 h2 hl
    obtain ⟨sec, port, hmem, hans, -⟩ := createContainer_created env b0 h2
    have hid : (Launch env b0).b.ID = (createContainer env b0).b.ID := by
      rcases Launch_cases env b0 with ⟨e, h, -⟩ | ⟨e, -, h, -⟩ | ⟨e, -, -, -, h⟩ |
        ⟨r, -, -, -, -, h⟩ | ⟨u, e, -, -, -, -, h⟩ | ⟨u, e, -, -, -, -, -, h⟩ |
        ⟨u, -, -, -, -, -, h⟩
      · simp [h1] at h
      · simp [h2] at h
      all_goals rw [h]
    have htr : Call.containerCreate containerConfig (hostConfig sec port) ∈
        (Launch env b0).trace := by
      rcases Launch_cases env b0 with ⟨e, h, -⟩ | ⟨e, -, h, -⟩ | ⟨e, -, -, -, h⟩ |
        ⟨r, -, -, -, -, h⟩ | ⟨u, e, -, -, -, -, h⟩ | ⟨u, e, -, -, -, -, -, h⟩ |
        ⟨u, -, -, -, -, -, h⟩
      · simp [h1] at h
      · simp [h2] at h
      all_goals
        rw [h]
        simp only [List.mem_append]
        tauto
    refine ⟨by simp [MakeObject, hn, hl], containerConfig, hostConfig sec port, ?_, ?_⟩
    · simp only [MakeObject, hn, hl, List.mem_append]
      exact Or.inr htr
    · rw [hid]; exact hans

/-- The run of `envStartFails`: the container is created, fails to start, and
is never removed. -/
theorem MakeObject_never_removes_witness :
    (MakeObject envStartFails).1 = .ret (none, some (.msg "port is already allocated")) ∧
    ∃ config host, Call.containerCreate config host ∈ (MakeObject envStartFails).2 ∧
      envStartFails.containerCreate config host = .ok (Launch envStartFails browserFresh).b.ID :=
  (MakeObject_never_removes envStartFails).2 browserFresh _ rfl
    (by rw [pullImage_val]; rfl) rfl
    (by rw [Launch_start_error envStartFails browserFresh _ (by rw [pullImage_val]; rfl) rfl rfl])

end Browserpool
